import Mathlib

/-!
Shallow embedding of the Ballista scheduler event loop
(`ballista/rust/scheduler/src/scheduler_server/event_loop.rs`).

The file models `SchedulerServerEventAction`'s resource-offer cycle:
`offer_resources` (snapshot -> empty-capacity retry -> delta baseline ->
policy call -> delta reconciliation -> dispatch) and `launch_tasks`
(the per-executor dispatch loop), together with the `on_receive` entry
point of the `EventAction` implementation.

External collaborators that the source only calls (the executor manager's
snapshot read, the task-scheduling policy `fetch_schedulable_tasks`, the
per-executor dispatch clients, and the registry update
`update_executor_data`) are modelled as explicit inputs: the snapshot is a
plain list (the call site uses the returned value directly as a `Vec`, so
the read has no error channel), the policy is a function that may fail and
returns the mutated snapshot alongside its assignment, and each dispatch
client is a function from a task list to a send result.  Side effects
(warnings, the backoff sleep, launch requests sent, registry updates
applied) are recorded in explicit trace structures.

Machine integers: `u32` values are `Nat`; the `as i32` cast at the delta
baseline and the `i32` subtraction at reconciliation are modelled with
explicit two's-complement wrapping (`u32_as_i32`, `i32_wrap`).
-/

namespace BallistaEventLoop

/-- Reinterpretation of a `u32` value (a `Nat`) as an `i32`, as Rust's
`as i32` cast does: two's-complement reinterpretation of the low 32 bits. -/
def u32_as_i32 (x : Nat) : Int :=
  if x % 4294967296 < 2147483648 then (x % 4294967296 : Int)
  else (x % 4294967296 : Int) - 4294967296

/-- Wrapping of an integer into the `i32` range, as Rust release-mode
arithmetic does on overflow. -/
def i32_wrap (x : Int) : Int :=
  (x + 2147483648) % 4294967296 - 2147483648

/-- `TaskDefinition` is opaque to the event loop: tasks are only tested for
emptiness of their per-executor lists and forwarded to the dispatch client,
so a task is modelled as an opaque identifier. -/
abbrev TaskDefinition := Nat

/-- One entry of the capacity snapshot returned by
`executor_manager.get_available_executors_data()`: an executor id and its
available task-slot count (`u32`). -/
structure ExecutorData where
  executor_id : String
  available_task_slots : Nat
  deriving DecidableEq

/-- `ExecutorDataChange`: an executor id and a signed (`i32`) slot change.
Seeded with the snapshot's slot counts, then reconciled to the signed
change the policy caused (lines 68-86 of the source). -/
structure ExecutorDataChange where
  executor_id : String
  task_slots : Int
  deriving DecidableEq

/-- `SchedulerServerEvent`: the one event variant the action handles. -/
inductive SchedulerServerEvent where
  | ReviveOffers (n : Nat)
  deriving DecidableEq

/-- A dispatch client's `launch_task`: the send of one task list, either
acknowledged as sent (`ok`) or failing with an error. -/
abbrev Client := List TaskDefinition → Except String Unit

/-- The `ExecutorsClient` map: executor id to dispatch client, as read from
`self.executors_client.read().await` followed by `clients.get(..)`. -/
abbrev ClientMap := String → Option Client

/-- Side effects of one `launch_tasks` run: the launch requests issued to
clients (executor id with the task list sent), and the registry updates
applied through `update_executor_data`, both in program order. -/
structure LaunchTrace where
  sends : List (String × List TaskDefinition)
  updates : List ExecutorDataChange
  deriving DecidableEq

/-- Outcome of `launch_tasks`: normal return, a propagated send error
(`client.launch_task(..).await?`), or a Rust panic — from the unchecked
`clients.get(&..).unwrap()` when no client is registered, or from the
out-of-bounds index `&executors[idx_executor]`. -/
inductive LaunchStatus where
  | ok
  | sendError (e : String)
  | panicMissingClient (executor_id : String)
  | panicIndexOutOfBounds
  deriving DecidableEq

/-- Whether a launch outcome is the missing-dispatch-client panic. -/
def LaunchStatus.isMissingClientPanic : LaunchStatus → Bool
  | .panicMissingClient _ => true
  | _ => false

/-- `launch_tasks` (source lines 98-145).  The Rust loop iterates
`tasks_assigment` with `enumerate`, reading `&executors[idx_executor]` at
each step; since the index advances by exactly one per iteration, that
indexed walk is modelled as lockstep structural recursion on the two
lists, with the empty-`executors` case standing for the out-of-bounds
panic.  A non-empty task list resolves the executor's client
(`unwrap` on the map lookup: `none` is a panic), sends the launch request,
and only after the send returns `Ok` applies the registry update; an empty
task list breaks out of the loop at once. -/
def launch_tasks (clients : ClientMap) :
    List ExecutorDataChange → List (List TaskDefinition) →
      LaunchStatus × LaunchTrace
  | _, [] => (.ok, ⟨[], []⟩)
  | execs, tasks :: rest =>
    if tasks.isEmpty then
      (.ok, ⟨[], []⟩)
    else
      match execs with
      | [] => (.panicIndexOutOfBounds, ⟨[], []⟩)
      | executor_data_change :: execs2 =>
        match clients executor_data_change.executor_id with
        | none => (.panicMissingClient executor_data_change.executor_id, ⟨[], []⟩)
        | some client =>
          match client tasks with
          | .error e =>
            (.sendError e, ⟨[(executor_data_change.executor_id, tasks)], []⟩)
          | .ok _ =>
            let r := launch_tasks clients execs2 rest
            (r.1, ⟨(executor_data_change.executor_id, tasks) :: r.2.sends,
                   executor_data_change :: r.2.updates⟩)

/-- The scheduling policy `state.fetch_schedulable_tasks(&mut available, n)`:
it may fail, and on success returns the snapshot as mutated in place,
the per-executor assignment batch, and the total assigned-task count. -/
abbrev Policy :=
  List ExecutorData → Nat →
    Except String (List ExecutorData × List (List TaskDefinition) × Nat)

/-- The collaborators one offer cycle consumes: the scheduling policy and
the dispatch-client map. -/
structure OfferEnv where
  policy : Policy
  clients : ClientMap

/-- Side effects of one `offer_resources` run: whether the empty-capacity
warning was logged, the backoff sleep performed (milliseconds), whether the
policy was called, the final value of `executors_data_change` (the delta
sequence), whether `launch_tasks` was invoked, and the launch requests and
registry updates it performed. -/
structure OfferTrace where
  warned : Bool
  slept_ms : Option Nat
  policy_called : Bool
  deltas : List ExecutorDataChange
  launch_invoked : Bool
  sends : List (String × List TaskDefinition)
  updates : List ExecutorDataChange
  deriving DecidableEq

/-- Result of one offer cycle as seen by the event-loop driver: success
with an optional follow-up event, a propagated error, or a panic escaping
`launch_tasks` (payload: the missing executor id, or `none` for the
out-of-bounds index). -/
inductive CycleResult where
  | ok (followUp : Option SchedulerServerEvent)
  | err (e : String)
  | panicked (missing_client : Option String)
  deriving DecidableEq

/-- How a `launch_tasks` outcome surfaces from `offer_resources`: an `Ok`
run lets the cycle complete with no follow-up event, a send error
propagates through `?`, and a panic unwinds. -/
def cycleResultOfLaunch : LaunchStatus → CycleResult
  | .ok => .ok none
  | .sendError e => .err e
  | .panicMissingClient id => .panicked (some id)
  | .panicIndexOutOfBounds => .panicked none

/-- The delta baseline (source lines 68-74): one `ExecutorDataChange` per
snapshot entry, seeded with `available_task_slots as i32`. -/
def baselineChanges (available : List ExecutorData) : List ExecutorDataChange :=
  available.map (fun executor_data =>
    { executor_id := executor_data.executor_id,
      task_slots := u32_as_i32 executor_data.available_task_slots })

/-- The reconciliation loop (source lines 80-86):
`executors_data_change.iter_mut().zip(available_executors.iter())` walks
both sequences and overwrites each change's `task_slots` with
`available_task_slots as i32 - task_slots` (post-call count minus the
seeded baseline, with `i32` wrapping).  Entries of `executors_data_change`
beyond the length of the zipped snapshot are left as seeded, matching
`zip`'s truncation with in-place mutation. -/
def reconcile (changes : List ExecutorDataChange) (post : List ExecutorData) :
    List ExecutorDataChange :=
  match changes, post with
  | [], _ => []
  | cs, [] => cs
  | c :: cs, d :: ds =>
    { executor_id := c.executor_id,
      task_slots := i32_wrap (u32_as_i32 d.available_task_slots - c.task_slots) }
      :: reconcile cs ds

/-- `offer_resources` (source lines 57-95), for the non-test build
(the `#[cfg(not(test))]` dispatch block is present).  An empty snapshot
logs a warning, sleeps 100 ms, and returns a `ReviveOffers(1)` follow-up;
otherwise the delta baseline is built, the policy is called (its error
propagates via `?` with no dispatch and no registry update), deltas are
reconciled, and `launch_tasks` runs only when `num_tasks > 0`; its error
or panic propagates, and otherwise the cycle completes with no follow-up. -/
def offer_resources (env : OfferEnv) (available_executors : List ExecutorData)
    (n : Nat) : CycleResult × OfferTrace :=
  if available_executors.isEmpty then
    (.ok (some (.ReviveOffers 1)),
     { warned := true, slept_ms := some 100, policy_called := false,
       deltas := [], launch_invoked := false, sends := [], updates := [] })
  else
    let executors_data_change := baselineChanges available_executors
    match env.policy available_executors n with
    | .error e =>
      (.err e,
       { warned := false, slept_ms := none, policy_called := true,
         deltas := executors_data_change, launch_invoked := false,
         sends := [], updates := [] })
    | .ok (available2, tasks_assigment, num_tasks) =>
      let deltas := reconcile executors_data_change available2
      if num_tasks > 0 then
        let r := launch_tasks env.clients deltas tasks_assigment
        (cycleResultOfLaunch r.1,
         { warned := false, slept_ms := none, policy_called := true,
           deltas := deltas, launch_invoked := true,
           sends := r.2.sends, updates := r.2.updates })
      else
        (.ok none,
         { warned := false, slept_ms := none, policy_called := true,
           deltas := deltas, launch_invoked := false, sends := [], updates := [] })

/-- `on_receive` of the `EventAction` implementation (source lines 158-165):
dispatches the one event variant to `offer_resources`. -/
def on_receive (env : OfferEnv) (available_executors : List ExecutorData) :
    SchedulerServerEvent → CycleResult × OfferTrace
  | .ReviveOffers n => offer_resources env available_executors n

/-! ## Unfolding lemmas for `offer_resources` -/

/-- On a non-empty snapshot with a successful policy call, `offer_resources`
reconciles the deltas and either dispatches (when `num_tasks > 0`) or
completes directly. -/
theorem offer_resources_policy_ok (env : OfferEnv) (a : ExecutorData)
    (as2 : List ExecutorData) (n : Nat) (post : List ExecutorData)
    (assigns : List (List TaskDefinition)) (num : Nat)
    (h2 : env.policy (a :: as2) n = .ok (post, assigns, num)) :
    offer_resources env (a :: as2) n =
      if 0 < num then
        (cycleResultOfLaunch
           (launch_tasks env.clients
             (reconcile (baselineChanges (a :: as2)) post) assigns).1,
         { warned := false, slept_ms := none, policy_called := true,
           deltas := reconcile (baselineChanges (a :: as2)) post,
           launch_invoked := true,
           sends := (launch_tasks env.clients
             (reconcile (baselineChanges (a :: as2)) post) assigns).2.sends,
           updates := (launch_tasks env.clients
             (reconcile (baselineChanges (a :: as2)) post) assigns).2.updates })
      else
        (.ok none,
         { warned := false, slept_ms := none, policy_called := true,
           deltas := reconcile (baselineChanges (a :: as2)) post,
           launch_invoked := false, sends := [], updates := [] }) := by
  unfold offer_resources
  rw [h2]
  rfl

/-- On a non-empty snapshot with a failing policy call, `offer_resources`
propagates the error with the baseline deltas and no dispatch. -/
theorem offer_resources_policy_error (env : OfferEnv) (a : ExecutorData)
    (as2 : List ExecutorData) (n : Nat) (e : String)
    (h2 : env.policy (a :: as2) n = .error e) :
    offer_resources env (a :: as2) n =
      (.err e,
       { warned := false, slept_ms := none, policy_called := true,
         deltas := baselineChanges (a :: as2), launch_invoked := false,
         sends := [], updates := [] }) := by
  unfold offer_resources
  rw [h2]
  rfl

/-- Entry `i` of the reconciled deltas, from entry `i` of the seeded
changes and entry `i` of the post-call snapshot. -/
theorem reconcile_get? (changes : List ExecutorDataChange)
    (post : List ExecutorData) (i : Nat) (c : ExecutorDataChange)
    (d : ExecutorData) (hc : changes.get? i = some c)
    (hd : post.get? i = some d) :
    (reconcile changes post).get? i =
      some { executor_id := c.executor_id,
             task_slots :=
               i32_wrap (u32_as_i32 d.available_task_slots - c.task_slots) } := by
  induction changes generalizing post i with
  | nil => simp at hc
  | cons c0 cs ih =>
    cases post with
    | nil => simp at hd
    | cons d0 ds =>
      cases i with
      | zero =>
        simp only [List.get?_cons_zero, Option.some.injEq] at hc hd
        subst hc; subst hd
        rfl
      | succ j =>
        simp only [List.get?_cons_succ] at hc hd
        simpa [reconcile] using ih ds j hc hd

/-- Reconciliation never changes an entry's executor id, positionally. -/
theorem reconcile_id_get? (changes : List ExecutorDataChange)
    (post : List ExecutorData) (i : Nat) :
    ((reconcile changes post).get? i).map ExecutorDataChange.executor_id =
      (changes.get? i).map ExecutorDataChange.executor_id := by
  induction changes generalizing post i with
  | nil => simp [reconcile]
  | cons c0 cs ih =>
    cases post with
    | nil => simp [reconcile]
    | cons d0 ds =>
      cases i with
      | zero => rfl
      | succ j => simpa [reconcile] using ih ds j

/-- Whatever `launch_tasks` does afterwards, the delta sequence recorded by
a cycle with a non-empty snapshot and a successful policy call is the
reconciliation of the seeded baseline with the post-call snapshot. -/
theorem offer_deltas_eq (env : OfferEnv) (available : List ExecutorData)
    (n : Nat) (post : List ExecutorData)
    (assigns : List (List TaskDefinition)) (num : Nat)
    (h1 : available ≠ [])
    (h2 : env.policy available n = .ok (post, assigns, num)) :
    (offer_resources env available n).2.deltas =
      reconcile (baselineChanges available) post := by
  cases available with
  | nil => exact absurd rfl h1
  | cons a as2 =>
    rw [offer_resources_policy_ok env a as2 n post assigns num h2]
    by_cases hnum : 0 < num
    · rw [if_pos hnum]
    · rw [if_neg hnum]

/-! ## The claims -/

/-- C2: on an empty capacity snapshot, for every requested batch size `n`,
the cycle succeeds without calling the policy or dispatching, logs a
warning, sleeps the fixed 100 ms backoff, and returns exactly one
follow-up `ReviveOffers(1)` event — the retry batch size is 1 regardless
of `n`. -/
theorem c2_empty_snapshot_retry (env : OfferEnv) (n : Nat) :
    offer_resources env [] n =
      (.ok (some (.ReviveOffers 1)),
       { warned := true, slept_ms := some 100, policy_called := false,
         deltas := [], launch_invoked := false, sends := [], updates := [] }) :=
  rfl

/-- C5: when the policy invocation fails on a non-empty snapshot, the cycle
returns that error, `launch_tasks` is never invoked, no launch request is
sent, and no registry update is applied — the slot counters stay exactly
as read. -/
theorem c5_policy_failure_atomic (env : OfferEnv)
    (available : List ExecutorData) (n : Nat) (e : String)
    (h1 : available ≠ [])
    (h2 : env.policy available n = .error e) :
    offer_resources env available n =
      (.err e,
       { warned := false, slept_ms := none, policy_called := true,
         deltas := baselineChanges available, launch_invoked := false,
         sends := [], updates := [] }) := by
  cases available with
  | nil => exact absurd rfl h1
  | cons a as2 => exact offer_resources_policy_error env a as2 n e h2

/-- A failing-policy environment used to instantiate `c5_policy_failure_atomic`. -/
def envPolicyFails : OfferEnv :=
  { policy := fun _ _ => .error "policy failed",
    clients := fun _ => none }

/-- Witness for C5 at a concrete one-executor snapshot. -/
theorem c5_policy_failure_witness :
    offer_resources envPolicyFails [⟨"a", 2⟩] 3 =
      (.err "policy failed",
       { warned := false, slept_ms := none, policy_called := true,
         deltas := [⟨"a", 2⟩], launch_invoked := false,
         sends := [], updates := [] }) := by
  have h := c5_policy_failure_atomic envPolicyFails [⟨"a", 2⟩] 3 "policy failed"
    (by decide) rfl
  simpa using h

/-- An environment whose policy consumes the snapshot's two slots: the
post-call snapshot reports zero available slots, no tasks are surfaced in
the batch (`num_tasks = 0`), so the cycle skips dispatch. -/
def envConsumeTwo : OfferEnv :=
  { policy := fun _ _ => .ok ([⟨"a", 0⟩], [[]], 0),
    clients := fun _ => none }

/-- C1 counterexample: with pre-call baseline 2 and post-call count 0 for
executor "a", the recorded delta is `0 - 2 = -2`, not the claimed
`pre - post = 2`: the code computes post-call count minus baseline, the
negation of what the claim states. -/
theorem c1_delta_counterexample :
    (offer_resources envConsumeTwo [⟨"a", 2⟩] 1).2.deltas =
      [{ executor_id := "a", task_slots := -2 }] ∧
    (offer_resources envConsumeTwo [⟨"a", 2⟩] 1).2.deltas ≠
      [{ executor_id := "a", task_slots := 2 }] := by
  constructor <;> decide

/-- C1 as amended: in every offer cycle with a non-empty capacity snapshot
and a successful policy call, the delta recorded for each executor equals
that executor's post-call slot count minus its pre-call baseline (both
read as `i32`, the difference wrapping as `i32`) — the negation of the
number of slots the policy consumed, which is later applied additively to
the registry. -/
theorem c1_delta_is_post_minus_pre (env : OfferEnv)
    (available : List ExecutorData) (n : Nat) (post : List ExecutorData)
    (assigns : List (List TaskDefinition)) (num : Nat) (i : Nat)
    (pre_i post_i : ExecutorData)
    (h1 : available ≠ [])
    (h2 : env.policy available n = .ok (post, assigns, num))
    (hpre : available.get? i = some pre_i)
    (hpost : post.get? i = some post_i) :
    ((offer_resources env available n).2.deltas).get? i =
      some { executor_id := pre_i.executor_id,
             task_slots :=
               i32_wrap (u32_as_i32 post_i.available_task_slots -
                 u32_as_i32 pre_i.available_task_slots) } := by
  rw [offer_deltas_eq env available n post assigns num h1 h2]
  have hb : (baselineChanges available).get? i =
      some { executor_id := pre_i.executor_id,
             task_slots := u32_as_i32 pre_i.available_task_slots } := by
    unfold baselineChanges
    rw [List.get?_map, hpre]
    rfl
  exact reconcile_get? (baselineChanges available) post i _ post_i hb hpost

/-- Witness for the amended C1: concrete cycle with baseline 2 and
post-call count 0 records delta `-2` for executor "a". -/
theorem c1_delta_witness :
    ((offer_resources envConsumeTwo [⟨"a", 2⟩] 1).2.deltas).get? 0 =
      some { executor_id := "a", task_slots := -2 } := by
  have h := c1_delta_is_post_minus_pre envConsumeTwo [⟨"a", 2⟩] 1 [⟨"a", 0⟩]
    [[]] 0 0 ⟨"a", 2⟩ ⟨"a", 0⟩ (by decide) rfl rfl rfl
  exact h

/-- A two-executor environment: the policy assigns one task to "a"
(consuming one of its slots), none to "b", and every executor has a
dispatch client that acknowledges the send. -/
def envTwoExec : OfferEnv :=
  { policy := fun _ _ => .ok ([⟨"a", 1⟩, ⟨"b", 3⟩], [[7], []], 1),
    clients := fun _ => some (fun _ => .ok ()) }

/-- C6: in every offer cycle with a non-empty snapshot and a successful
policy call, the recorded delta sequence corresponds positionally to the
capacity snapshot: the executor id at position `i` of the deltas equals
the executor id at position `i` of the snapshot, for every `i` (in
particular both sequences have the same length). -/
theorem c6_delta_positional_ids (env : OfferEnv)
    (available : List ExecutorData) (n : Nat) (post : List ExecutorData)
    (assigns : List (List TaskDefinition)) (num : Nat)
    (h1 : available ≠ [])
    (h2 : env.policy available n = .ok (post, assigns, num)) (i : Nat) :
    (((offer_resources env available n).2.deltas).get? i).map
        ExecutorDataChange.executor_id =
      (available.get? i).map ExecutorData.executor_id := by
  rw [offer_deltas_eq env available n post assigns num h1 h2]
  rw [reconcile_id_get?]
  unfold baselineChanges
  rw [List.get?_map]
  cases available.get? i <;> rfl

/-- Witness for C6: a concrete two-executor cycle where the policy also
reorders nothing; position 0 and 1 of the deltas name "a" and "b", as the
snapshot does. -/
theorem c6_delta_positional_ids_witness :
    (((offer_resources envTwoExec [⟨"a", 2⟩, ⟨"b", 3⟩] 2).2.deltas).get? 1).map
        ExecutorDataChange.executor_id = some "b" := by
  have h := c6_delta_positional_ids envTwoExec [⟨"a", 2⟩, ⟨"b", 3⟩] 2
    [⟨"a", 1⟩, ⟨"b", 3⟩] [[7], []] 1 (by decide) rfl 1
  simpa using h

/-- C7: in every cycle with a non-empty snapshot where the policy call
succeeds and any dispatch it triggers succeeds, `on_receive` returns
success with no follow-up event. -/
theorem c7_success_no_followup (env : OfferEnv)
    (available : List ExecutorData) (n : Nat) (post : List ExecutorData)
    (assigns : List (List TaskDefinition)) (num : Nat)
    (h1 : available ≠ [])
    (h2 : env.policy available n = .ok (post, assigns, num))
    (h3 : 0 < num →
      (launch_tasks env.clients (reconcile (baselineChanges available) post)
        assigns).1 = .ok) :
    (on_receive env available (.ReviveOffers n)).1 = CycleResult.ok none := by
  cases available with
  | nil => exact absurd rfl h1
  | cons a as2 =>
    show (offer_resources env (a :: as2) n).1 = CycleResult.ok none
    rw [offer_resources_policy_ok env a as2 n post assigns num h2]
    by_cases hnum : 0 < num
    · rw [if_pos hnum]
      rw [h3 hnum]
      rfl
    · rw [if_neg hnum]

/-- Witness for C7: a concrete two-executor cycle whose one launch
request is acknowledged. -/
theorem c7_success_no_followup_witness :
    (on_receive envTwoExec [⟨"a", 2⟩, ⟨"b", 3⟩] (.ReviveOffers 2)).1 =
      CycleResult.ok none := by
  have h := c7_success_no_followup envTwoExec [⟨"a", 2⟩, ⟨"b", 3⟩] 2
    [⟨"a", 1⟩, ⟨"b", 3⟩] [[7], []] 1 (by decide) rfl (fun _ => by decide)
  exact h

/-- C8: in every cycle with a non-empty snapshot and a successful policy
call, `launch_tasks` is invoked if and only if the total assigned-task
count is positive, and when that count is zero no launch request is sent
and no registry update is applied. -/
theorem c8_dispatch_iff_positive (env : OfferEnv)
    (available : List ExecutorData) (n : Nat) (post : List ExecutorData)
    (assigns : List (List TaskDefinition)) (num : Nat)
    (h1 : available ≠ [])
    (h2 : env.policy available n = .ok (post, assigns, num)) :
    ((offer_resources env available n).2.launch_invoked = true ↔ 0 < num) ∧
    (num = 0 → (offer_resources env available n).2.sends = [] ∧
      (offer_resources env available n).2.updates = []) := by
  cases available with
  | nil => exact absurd rfl h1
  | cons a as2 =>
    rw [offer_resources_policy_ok env a as2 n post assigns num h2]
    by_cases hnum : 0 < num
    · rw [if_pos hnum]
      exact ⟨by simpa using hnum, fun h0 => by omega⟩
    · rw [if_neg hnum]
      exact ⟨by simpa using hnum, fun _ => ⟨rfl, rfl⟩⟩

/-- Witness for C8, both directions: with one assigned task the dispatch
loop runs; with zero assigned tasks it does not and the traces are empty. -/
theorem c8_dispatch_iff_positive_witness :
    ((offer_resources envTwoExec [⟨"a", 2⟩, ⟨"b", 3⟩] 2).2.launch_invoked =
        true ↔ 0 < 1) ∧
    ((offer_resources envConsumeTwo [⟨"a", 2⟩] 1).2.launch_invoked = true ↔
        0 < 0) := by
  constructor
  · exact (c8_dispatch_iff_positive envTwoExec [⟨"a", 2⟩, ⟨"b", 3⟩] 2
      [⟨"a", 1⟩, ⟨"b", 3⟩] [[7], []] 1 (by decide) rfl).1
  · exact (c8_dispatch_iff_positive envConsumeTwo [⟨"a", 2⟩] 1
      [⟨"a", 0⟩] [[]] 0 (by decide) rfl).1

/-- Equation: an exhausted assignment batch ends the loop normally. -/
theorem launch_tasks_nil (clients : ClientMap)
    (execs : List ExecutorDataChange) :
    launch_tasks clients execs [] = (.ok, ⟨[], []⟩) := by
  unfold launch_tasks
  rfl

/-- Equation: an empty task list at the head breaks the loop at once. -/
theorem launch_tasks_empty_head (clients : ClientMap)
    (execs : List ExecutorDataChange) (tasks : List TaskDefinition)
    (rest : List (List TaskDefinition)) (hemp : tasks.isEmpty = true) :
    launch_tasks clients execs (tasks :: rest) = (.ok, ⟨[], []⟩) := by
  unfold launch_tasks
  rw [hemp]
  rfl

/-- Equation: a non-empty task list with no executor left at this position
is the out-of-bounds indexing panic. -/
theorem launch_tasks_nil_execs (clients : ClientMap)
    (tasks : List TaskDefinition) (rest : List (List TaskDefinition))
    (hemp : tasks.isEmpty = false) :
    launch_tasks clients [] (tasks :: rest) =
      (.panicIndexOutOfBounds, ⟨[], []⟩) := by
  unfold launch_tasks
  rw [hemp]
  rfl

/-- Equation: a non-empty task list whose executor has no registered
dispatch client is the `unwrap` panic. -/
theorem launch_tasks_cons_none (clients : ClientMap) (c : ExecutorDataChange)
    (cs : List ExecutorDataChange) (tasks : List TaskDefinition)
    (rest : List (List TaskDefinition)) (hemp : tasks.isEmpty = false)
    (hcl : clients c.executor_id = none) :
    launch_tasks clients (c :: cs) (tasks :: rest) =
      (.panicMissingClient c.executor_id, ⟨[], []⟩) := by
  unfold launch_tasks
  rw [hemp]
  simp only []
  rw [hcl]
  rfl

/-- Equation: a failing send stops the loop with that error; the failed
launch request is recorded, no registry update is. -/
theorem launch_tasks_cons_sendError (clients : ClientMap)
    (c : ExecutorDataChange) (cs : List ExecutorDataChange)
    (tasks : List TaskDefinition) (rest : List (List TaskDefinition))
    (cl : Client) (e : String) (hemp : tasks.isEmpty = false)
    (hcl : clients c.executor_id = some cl) (hsend : cl tasks = .error e) :
    launch_tasks clients (c :: cs) (tasks :: rest) =
      (.sendError e, ⟨[(c.executor_id, tasks)], []⟩) := by
  unfold launch_tasks
  rw [hemp]
  simp only []
  rw [hcl]
  simp only []
  rw [hsend]
  rfl

/-- One unrolling of `launch_tasks` at a cons/cons pair of inputs. -/
theorem launch_tasks_cons_step (clients : ClientMap) (c : ExecutorDataChange)
    (cs : List ExecutorDataChange) (tasks : List TaskDefinition)
    (rest : List (List TaskDefinition)) :
    launch_tasks clients (c :: cs) (tasks :: rest) =
      if tasks.isEmpty then (.ok, ⟨[], []⟩)
      else
        match clients c.executor_id with
        | none => (.panicMissingClient c.executor_id, ⟨[], []⟩)
        | some client =>
          match client tasks with
          | .error e => (.sendError e, ⟨[(c.executor_id, tasks)], []⟩)
          | .ok _ =>
            ((launch_tasks clients cs rest).1,
             ⟨(c.executor_id, tasks) :: (launch_tasks clients cs rest).2.sends,
              c :: (launch_tasks clients cs rest).2.updates⟩) := rfl

/-- Equation: an acknowledged send records the launch request, applies the
registry update, and continues with the remaining positions. -/
theorem launch_tasks_cons_sendOk (clients : ClientMap)
    (c : ExecutorDataChange) (cs : List ExecutorDataChange)
    (tasks : List TaskDefinition) (rest : List (List TaskDefinition))
    (cl : Client) (u : Unit) (hemp : tasks.isEmpty = false)
    (hcl : clients c.executor_id = some cl) (hsend : cl tasks = .ok u) :
    launch_tasks clients (c :: cs) (tasks :: rest) =
      ((launch_tasks clients cs rest).1,
       ⟨(c.executor_id, tasks) :: (launch_tasks clients cs rest).2.sends,
        c :: (launch_tasks clients cs rest).2.updates⟩) := by
  rw [launch_tasks_cons_step]
  rw [if_neg (show ¬ tasks.isEmpty = true by simp [hemp])]
  rw [hcl]
  show (match cl tasks with
        | .error e => (LaunchStatus.sendError e,
            (⟨[(c.executor_id, tasks)], []⟩ : LaunchTrace))
        | .ok _ =>
          ((launch_tasks clients cs rest).1,
           ⟨(c.executor_id, tasks) :: (launch_tasks clients cs rest).2.sends,
            c :: (launch_tasks clients cs rest).2.updates⟩)) = _
  rw [hsend]

/-- Position `i` of the dispatch loop processes successfully: the executor
exists at that position, its dispatch client is registered, its task list
is non-empty, and the client acknowledges the send. -/
def StepSucceeds (clients : ClientMap) (execs : List ExecutorDataChange)
    (assignments : List (List TaskDefinition)) (i : Nat) : Prop :=
  ∃ c cl ts, execs.get? i = some c ∧ clients c.executor_id = some cl ∧
    assignments.get? i = some ts ∧ ts ≠ [] ∧ cl ts = .ok ()

/-- Position `i` of the dispatch loop fails its send with error `e`. -/
def StepFailsWith (clients : ClientMap) (execs : List ExecutorDataChange)
    (assignments : List (List TaskDefinition)) (i : Nat) (e : String) : Prop :=
  ∃ c cl ts, execs.get? i = some c ∧ clients c.executor_id = some cl ∧
    assignments.get? i = some ts ∧ ts ≠ [] ∧ cl ts = .error e

/-- A successful step of the tails is a successful step of the conses,
one position later. -/
theorem StepSucceeds_cons (clients : ClientMap) (c : ExecutorDataChange)
    (cs : List ExecutorDataChange) (tasks : List TaskDefinition)
    (rest : List (List TaskDefinition)) (j : Nat)
    (h : StepSucceeds clients cs rest j) :
    StepSucceeds clients (c :: cs) (tasks :: rest) (j + 1) := by
  obtain ⟨c2, cl, ts, h1, h2, h3, h4, h5⟩ := h
  exact ⟨c2, cl, ts, by simpa using h1, h2, by simpa using h3, h4, h5⟩

/-- A failing step of the tails is a failing step of the conses, one
position later. -/
theorem StepFailsWith_cons (clients : ClientMap) (c : ExecutorDataChange)
    (cs : List ExecutorDataChange) (tasks : List TaskDefinition)
    (rest : List (List TaskDefinition)) (j : Nat) (e : String)
    (h : StepFailsWith clients cs rest j e) :
    StepFailsWith clients (c :: cs) (tasks :: rest) (j + 1) e := by
  obtain ⟨c2, cl, ts, h1, h2, h3, h4, h5⟩ := h
  exact ⟨c2, cl, ts, by simpa using h1, h2, by simpa using h3, h4, h5⟩

/-- Characterization of a dispatch loop ending in a send error: some
position `k` (within both sequences) fails its send after positions
`0..k-1` succeeded; the trace holds exactly the sends for positions
`0..k` and the registry updates for positions `0..k-1`. -/
theorem launch_tasks_sendError_char (clients : ClientMap)
    (assignments : List (List TaskDefinition)) :
    ∀ (execs : List ExecutorDataChange) (e : String) (tr : LaunchTrace),
      launch_tasks clients execs assignments = (.sendError e, tr) →
      ∃ k, k < execs.length ∧ k < assignments.length ∧
        (∀ i, i < k → StepSucceeds clients execs assignments i) ∧
        StepFailsWith clients execs assignments k e ∧
        tr.sends =
          ((execs.map ExecutorDataChange.executor_id).zip assignments).take
            (k + 1) ∧
        tr.updates = execs.take k := by
  induction assignments with
  | nil =>
    intro execs e tr h
    simp [launch_tasks] at h
  | cons tasks rest ih =>
    intro execs e tr h
    unfold launch_tasks at h
    by_cases hemp : tasks.isEmpty
    · rw [if_pos hemp] at h
      simp at h
    · rw [if_neg hemp] at h
      have htne : tasks ≠ [] := fun hn => hemp (by simp [hn])
      cases execs with
      | nil => simp at h
      | cons c cs =>
        simp only at h
        cases hcl : clients c.executor_id with
        | none =>
          rw [hcl] at h
          simp at h
        | some cl =>
          rw [hcl] at h
          simp only at h
          cases hsend : cl tasks with
          | error e2 =>
            rw [hsend] at h
            simp only at h
            rw [Prod.mk.injEq] at h
            obtain ⟨h1, h2⟩ := h
            injection h1 with h1
            subst h1
            refine ⟨0, by simp, by simp, ?_, ?_, ?_, ?_⟩
            · intro i hi
              omega
            · exact ⟨c, cl, tasks, rfl, hcl, rfl, htne, hsend⟩
            · rw [← h2]
              simp
            · rw [← h2]
              rfl
          | ok u =>
            cases u
            rw [hsend] at h
            simp only at h
            rcases hr : launch_tasks clients cs rest with ⟨st2, tr2⟩
            rw [hr] at h
            simp only at h
            rw [Prod.mk.injEq] at h
            obtain ⟨h1, h2⟩ := h
            obtain ⟨k, hk1, hk2, hsucc, hfail, hs, hu⟩ :=
              ih cs e tr2 (by rw [hr, h1])
            refine ⟨k + 1, by simpa using hk1, by simpa using hk2, ?_, ?_, ?_, ?_⟩
            · intro i hi
              cases i with
              | zero => exact ⟨c, cl, tasks, rfl, hcl, rfl, htne, hsend⟩
              | succ j =>
                exact StepSucceeds_cons clients c cs tasks rest j
                  (hsucc j (by omega))
            · exact StepFailsWith_cons clients c cs tasks rest k e hfail
            · rw [← h2]
              simp [hs]
            · rw [← h2]
              simp [hu]

/-- C3: dispatch failure semantics of `launch_tasks` — a registry update is
applied only for executors whose send was acknowledged; when the send for
the executor at position `k` fails, the loop returns that error, records
sends exactly for positions `0..k` (no later executor is attempted),
applies registry updates exactly for positions `0..k-1` (retained, not
rolled back), and does not apply the failed executor's update; lifted to
the cycle, `offer_resources` surfaces the same error with those traces. -/
theorem c3_send_failure_semantics (clients : ClientMap)
    (execs : List ExecutorDataChange)
    (assignments : List (List TaskDefinition)) (e : String) (tr : LaunchTrace)
    (h : launch_tasks clients execs assignments = (.sendError e, tr)) :
    (∃ k, k < execs.length ∧ k < assignments.length ∧
      (∀ i, i < k → StepSucceeds clients execs assignments i) ∧
      StepFailsWith clients execs assignments k e ∧
      tr.sends =
        ((execs.map ExecutorDataChange.executor_id).zip assignments).take
          (k + 1) ∧
      tr.updates = execs.take k) ∧
    (∀ (env : OfferEnv) (available post : List ExecutorData) (n num : Nat),
      env.clients = clients → available ≠ [] →
      env.policy available n = .ok (post, assignments, num) → 0 < num →
      reconcile (baselineChanges available) post = execs →
      offer_resources env available n =
        (.err e,
         { warned := false, slept_ms := none, policy_called := true,
           deltas := execs, launch_invoked := true,
           sends := tr.sends, updates := tr.updates })) := by
  constructor
  · exact launch_tasks_sendError_char clients assignments execs e tr h
  · intro env available post n num henv h1 h2 hnum hexecs
    cases available with
    | nil => exact absurd rfl h1
    | cons a as2 =>
      rw [offer_resources_policy_ok env a as2 n post assignments num h2]
      rw [if_pos hnum, hexecs, henv, h]
      rfl

/-- A client map in which executor "b"'s sends fail and every other
executor's sends are acknowledged. -/
def clientsBFails : ClientMap :=
  fun s =>
    if s = "b" then some (fun _ => .error "send failed")
    else some (fun _ => .ok ())

/-- Witness for C3: three executors, the second send fails; the loop stops
at position 1, keeps "a"'s applied update, never applies "b"'s, and never
attempts "c". -/
theorem c3_send_failure_witness :
    ∃ k, k < ([⟨"a", -1⟩, ⟨"b", -2⟩, ⟨"c", -1⟩] :
        List ExecutorDataChange).length ∧
      k < ([[1], [2], [3]] : List (List TaskDefinition)).length ∧
      (∀ i, i < k → StepSucceeds clientsBFails
        [⟨"a", -1⟩, ⟨"b", -2⟩, ⟨"c", -1⟩] [[1], [2], [3]] i) ∧
      StepFailsWith clientsBFails [⟨"a", -1⟩, ⟨"b", -2⟩, ⟨"c", -1⟩]
        [[1], [2], [3]] k "send failed" ∧
      (⟨[("a", [1]), ("b", [2])], [⟨"a", -1⟩]⟩ : LaunchTrace).sends =
        ((([⟨"a", -1⟩, ⟨"b", -2⟩, ⟨"c", -1⟩] :
            List ExecutorDataChange).map ExecutorDataChange.executor_id).zip
          [[1], [2], [3]]).take (k + 1) ∧
      (⟨[("a", [1]), ("b", [2])], [⟨"a", -1⟩]⟩ : LaunchTrace).updates =
        ([⟨"a", -1⟩, ⟨"b", -2⟩, ⟨"c", -1⟩] :
          List ExecutorDataChange).take k :=
  (c3_send_failure_semantics clientsBFails [⟨"a", -1⟩, ⟨"b", -2⟩, ⟨"c", -1⟩]
    [[1], [2], [3]] "send failed" ⟨[("a", [1]), ("b", [2])], [⟨"a", -1⟩]⟩
    (by decide)).1

/-- The dispatch trace is positional: the recorded sends are exactly the
initial segment (of their own length) of the executor-id/assignment zip,
and the recorded updates the initial segment of the executors list — the
loop never touches a position beyond where it stopped. -/
theorem launch_tasks_trace_prefix (clients : ClientMap)
    (assignments : List (List TaskDefinition)) :
    ∀ execs : List ExecutorDataChange,
      (launch_tasks clients execs assignments).2.sends =
        ((execs.map ExecutorDataChange.executor_id).zip assignments).take
          (launch_tasks clients execs assignments).2.sends.length ∧
      (launch_tasks clients execs assignments).2.updates =
        execs.take (launch_tasks clients execs assignments).2.updates.length := by
  induction assignments with
  | nil =>
    intro execs
    rw [launch_tasks_nil]
    exact ⟨rfl, rfl⟩
  | cons tasks rest ih =>
    intro execs
    by_cases hemp : tasks.isEmpty
    · rw [launch_tasks_empty_head clients execs tasks rest hemp]
      exact ⟨rfl, rfl⟩
    · have hemp2 : tasks.isEmpty = false := by simpa using hemp
      cases execs with
      | nil =>
        rw [launch_tasks_nil_execs clients tasks rest hemp2]
        exact ⟨rfl, rfl⟩
      | cons c cs =>
        cases hcl : clients c.executor_id with
        | none =>
          rw [launch_tasks_cons_none clients c cs tasks rest hemp2 hcl]
          exact ⟨rfl, rfl⟩
        | some cl =>
          cases hsend : cl tasks with
          | error e2 =>
            rw [launch_tasks_cons_sendError clients c cs tasks rest cl e2
              hemp2 hcl hsend]
            exact ⟨rfl, rfl⟩
          | ok u =>
            rw [launch_tasks_cons_sendOk clients c cs tasks rest cl u
              hemp2 hcl hsend]
            obtain ⟨ihs, ihu⟩ := ih cs
            constructor
            · simp only [List.length_cons, List.map_cons, List.zip_cons_cons,
                List.take_succ_cons]
              exact congrArg _ ihs
            · simp only [List.length_cons, List.take_succ_cons]
              exact congrArg _ ihu

/-- When some position `k` of the assignment batch is an empty task list,
the dispatch loop records at most `k` sends and at most `k` updates. -/
theorem launch_tasks_stops_at_empty (clients : ClientMap)
    (assignments : List (List TaskDefinition)) :
    ∀ (execs : List ExecutorDataChange) (k : Nat),
      assignments.get? k = some [] →
      (launch_tasks clients execs assignments).2.sends.length ≤ k ∧
      (launch_tasks clients execs assignments).2.updates.length ≤ k := by
  induction assignments with
  | nil =>
    intro execs k hk
    simp at hk
  | cons tasks rest ih =>
    intro execs k hk
    cases k with
    | zero =>
      have htasks : tasks = [] := by simpa using hk
      rw [launch_tasks_empty_head clients execs tasks rest (by simp [htasks])]
      simp
    | succ k2 =>
      have hk2 : rest.get? k2 = some [] := by simpa using hk
      by_cases hemp : tasks.isEmpty
      · rw [launch_tasks_empty_head clients execs tasks rest hemp]
        simp
      · have hemp2 : tasks.isEmpty = false := by simpa using hemp
        cases execs with
        | nil =>
          rw [launch_tasks_nil_execs clients tasks rest hemp2]
          simp
        | cons c cs =>
          cases hcl : clients c.executor_id with
          | none =>
            rw [launch_tasks_cons_none clients c cs tasks rest hemp2 hcl]
            simp
          | some cl =>
            cases hsend : cl tasks with
            | error e2 =>
              rw [launch_tasks_cons_sendError clients c cs tasks rest cl e2
                hemp2 hcl hsend]
              simp
            | ok u =>
              rw [launch_tasks_cons_sendOk clients c cs tasks rest cl u
                hemp2 hcl hsend]
              have := ih cs k2 hk2
              simp only [List.length_cons]
              omega

/-- C4: if the executor at position `k` of the assignment batch has an
empty task list, the dispatch loop stops by position `k`: at most `k`
launch requests and at most `k` registry updates are recorded, and — the
trace being positional — they concern only the executors at positions
before `k`; no dispatch call and no registry update occurs for any
position greater than `k`, regardless of those executors' task lists. -/
theorem c4_empty_list_early_exit (clients : ClientMap)
    (execs : List ExecutorDataChange)
    (assignments : List (List TaskDefinition)) (k : Nat)
    (hk : assignments.get? k = some []) :
    (launch_tasks clients execs assignments).2.sends.length ≤ k ∧
    (launch_tasks clients execs assignments).2.updates.length ≤ k ∧
    (launch_tasks clients execs assignments).2.sends =
      ((execs.map ExecutorDataChange.executor_id).zip assignments).take
        (launch_tasks clients execs assignments).2.sends.length ∧
    (launch_tasks clients execs assignments).2.updates =
      execs.take (launch_tasks clients execs assignments).2.updates.length := by
  obtain ⟨h1, h2⟩ := launch_tasks_stops_at_empty clients assignments execs k hk
  obtain ⟨h3, h4⟩ := launch_tasks_trace_prefix clients assignments execs
  exact ⟨h1, h2, h3, h4⟩

/-- A client map acknowledging every send, for dispatch-success scenarios. -/
def clientsAllOk : ClientMap := fun _ => some (fun _ => .ok ())

/-- Witness for C4, the spec's own scenario: slots `{2, 0, 3}`, task lists
`{[t1, t2], [], [t3]}`; the empty list at position 1 halts the loop, so at
most one send and one update happen — executor 3 is never dispatched. -/
theorem c4_empty_list_early_exit_witness :
    (launch_tasks clientsAllOk [⟨"a", -2⟩, ⟨"b", 0⟩, ⟨"c", -3⟩]
      [[1, 2], [], [3]]).2.sends.length ≤ 1 ∧
    (launch_tasks clientsAllOk [⟨"a", -2⟩, ⟨"b", 0⟩, ⟨"c", -3⟩]
      [[1, 2], [], [3]]).2.updates.length ≤ 1 :=
  ⟨(c4_empty_list_early_exit clientsAllOk [⟨"a", -2⟩, ⟨"b", 0⟩, ⟨"c", -3⟩]
      [[1, 2], [], [3]] 1 rfl).1,
   (c4_empty_list_early_exit clientsAllOk [⟨"a", -2⟩, ⟨"b", 0⟩, ⟨"c", -3⟩]
      [[1, 2], [], [3]] 1 rfl).2.1⟩

/-- When every executor in the delta list has a registered dispatch
client, the `unwrap` panic is unreachable. -/
theorem launch_tasks_total_clients_no_panic (clients : ClientMap)
    (assignments : List (List TaskDefinition)) :
    ∀ execs : List ExecutorDataChange,
      (∀ c, c ∈ execs → (clients c.executor_id).isSome = true) →
      (launch_tasks clients execs assignments).1.isMissingClientPanic =
        false := by
  induction assignments with
  | nil =>
    intro execs hall
    rw [launch_tasks_nil]
    rfl
  | cons tasks rest ih =>
    intro execs hall
    by_cases hemp : tasks.isEmpty
    · rw [launch_tasks_empty_head clients execs tasks rest hemp]
      rfl
    · have hemp2 : tasks.isEmpty = false := by simpa using hemp
      cases execs with
      | nil =>
        rw [launch_tasks_nil_execs clients tasks rest hemp2]
        rfl
      | cons c cs =>
        cases hcl : clients c.executor_id with
        | none =>
          have := hall c (by simp)
          rw [hcl] at this
          simp at this
        | some cl =>
          cases hsend : cl tasks with
          | error e2 =>
            rw [launch_tasks_cons_sendError clients c cs tasks rest cl e2
              hemp2 hcl hsend]
            rfl
          | ok u =>
            rw [launch_tasks_cons_sendOk clients c cs tasks rest cl u
              hemp2 hcl hsend]
            exact ih cs (fun c2 hc2 => hall c2 (by simp [hc2]))

/-- Soundness of the `unwrap` panic: it names an executor id with no
registered client, reached at a position whose task list is non-empty. -/
theorem launch_tasks_panic_sound (clients : ClientMap)
    (assignments : List (List TaskDefinition)) :
    ∀ (execs : List ExecutorDataChange) (id : String) (tr : LaunchTrace),
      launch_tasks clients execs assignments =
        (.panicMissingClient id, tr) →
      clients id = none ∧
      ∃ i c ts, execs.get? i = some c ∧ c.executor_id = id ∧
        assignments.get? i = some ts ∧ ts ≠ [] := by
  induction assignments with
  | nil =>
    intro execs id tr h
    rw [launch_tasks_nil] at h
    simp at h
  | cons tasks rest ih =>
    intro execs id tr h
    by_cases hemp : tasks.isEmpty
    · rw [launch_tasks_empty_head clients execs tasks rest hemp] at h
      simp at h
    · have hemp2 : tasks.isEmpty = false := by simpa using hemp
      have htne : tasks ≠ [] := fun hn => hemp (by simp [hn])
      cases execs with
      | nil =>
        rw [launch_tasks_nil_execs clients tasks rest hemp2] at h
        simp at h
      | cons c cs =>
        cases hcl : clients c.executor_id with
        | none =>
          rw [launch_tasks_cons_none clients c cs tasks rest hemp2 hcl] at h
          rw [Prod.mk.injEq] at h
          obtain ⟨h1, h2⟩ := h
          injection h1 with h1
          subst h1
          exact ⟨hcl, 0, c, tasks, rfl, rfl, rfl, htne⟩
        | some cl =>
          cases hsend : cl tasks with
          | error e2 =>
            rw [launch_tasks_cons_sendError clients c cs tasks rest cl e2
              hemp2 hcl hsend] at h
            simp at h
          | ok u =>
            rw [launch_tasks_cons_sendOk clients c cs tasks rest cl u
              hemp2 hcl hsend] at h
            rcases hr : launch_tasks clients cs rest with ⟨st2, tr2⟩
            rw [hr] at h
            simp only at h
            rw [Prod.mk.injEq] at h
            obtain ⟨h1, h2⟩ := h
            obtain ⟨hnone, i, c2, ts, hg1, hg2, hg3, hg4⟩ :=
              ih cs id tr2 (by rw [hr, h1])
            exact ⟨hnone, i + 1, c2, ts, by simpa using hg1, hg2,
              by simpa using hg3, hg4⟩

/-- C10: the dispatch-client resolution is not total.  (1) Under the
precondition that every executor in the delta list has a registered
client, the loop never hits the `unwrap` panic; (2) whenever the loop
does end in the missing-client panic, the named executor id has no
registered client and sits at a position with a non-empty task list;
(3) reaching a position whose executor has a non-empty task list but no
registered client panics — the loop does not return an error there. -/
theorem c10_unwrap_missing_client (clients : ClientMap) :
    (∀ (execs : List ExecutorDataChange)
       (assignments : List (List TaskDefinition)),
       (∀ c, c ∈ execs → (clients c.executor_id).isSome = true) →
       (launch_tasks clients execs assignments).1.isMissingClientPanic =
         false) ∧
    (∀ (execs : List ExecutorDataChange)
       (assignments : List (List TaskDefinition)) (id : String)
       (tr : LaunchTrace),
       launch_tasks clients execs assignments =
         (.panicMissingClient id, tr) →
       clients id = none ∧
       ∃ i c ts, execs.get? i = some c ∧ c.executor_id = id ∧
         assignments.get? i = some ts ∧ ts ≠ []) ∧
    (∀ (c : ExecutorDataChange) (cs : List ExecutorDataChange)
       (tasks : List TaskDefinition) (rest : List (List TaskDefinition)),
       tasks ≠ [] → clients c.executor_id = none →
       launch_tasks clients (c :: cs) (tasks :: rest) =
         (.panicMissingClient c.executor_id, ⟨[], []⟩)) := by
  refine ⟨?_, ?_, ?_⟩
  · intro execs assignments hall
    exact launch_tasks_total_clients_no_panic clients assignments execs hall
  · intro execs assignments id tr h
    exact launch_tasks_panic_sound clients assignments execs id tr h
  · intro c cs tasks rest htne hcl
    have hemp2 : tasks.isEmpty = false := by
      cases tasks with
      | nil => exact absurd rfl htne
      | cons t ts => rfl
    exact launch_tasks_cons_none clients c cs tasks rest hemp2 hcl

/-- A client map registering only executor "a". -/
def clientsOnlyA : ClientMap :=
  fun s => if s = "a" then some (fun _ => .ok ()) else none

/-- Witness for C10: executor "b" with an assigned task and no registered
client panics; with every needed client registered the panic is
unreachable. -/
theorem c10_unwrap_missing_client_witness :
    launch_tasks clientsOnlyA [⟨"b", -1⟩] [[5]] =
      (.panicMissingClient "b", ⟨[], []⟩) ∧
    (launch_tasks clientsOnlyA [⟨"a", -1⟩]
      [[5]]).1.isMissingClientPanic = false := by
  constructor
  · exact (c10_unwrap_missing_client clientsOnlyA).2.2 ⟨"b", -1⟩ [] [5] []
      (by decide) rfl
  · exact (c10_unwrap_missing_client clientsOnlyA).1 [⟨"a", -1⟩] [[5]]
      (by
        intro c hc
        simp at hc
        subst hc
        rfl)

end BallistaEventLoop
